import Mathlib

/-
Shallow embedding of `src/motd_stress_test_optimized.py`.

The script stress-tests a Minecraft server's MOTD endpoint: it validates the
command-line configuration, pings once, then submits `total` probe tasks to a
thread pool (paced by an optional per-request delay derived from `--qps`),
collects the completed futures, and prints a statistics report (success and
failure counts, latency average/min/max/P99, per-second submission histogram).

Modelling choices:
  * Latencies (milliseconds, Python floats) are modelled as rationals `ℚ`.
  * A finished future's result is `Except String ℚ`: `Except.ok ms` when
    `fut.result()` returns the elapsed milliseconds, `Except.error e` when it
    re-raises the task's exception.
  * The `as_completed` collection loop and the Ctrl+C handler loop are folds
    over the list of outcomes in the order the loops observe them; the counting
    facts proved below are independent of that order.
  * Epoch seconds (`int(time.time())`) are modelled as integers `ℤ`.
-/

namespace MotdStress

/-- The shared `stats` dictionary (lines 37-41 of the source): success count,
failure count, and the list of latency samples in milliseconds. -/
structure Stats where
  success : Nat
  failure : Nat
  latencies : List ℚ
  deriving DecidableEq, Repr

/-- The initial value of `stats`: both counters zero, no samples. -/
def stats0 : Stats := ⟨0, 0, []⟩

/-- The result a finished future hands back: elapsed milliseconds on success,
the raised exception's message on failure. -/
abbrev Outcome := Except String ℚ

/-- One iteration of the normal collection loop (source lines 392-411).
`fut.result()` succeeding runs the `try` body — `stats["success"] += 1` and
`stats["latencies"].append(elapsed_ms)` — and then, because no exception was
raised, the `else:` branch as well, which executes `stats["success"] += 1` a
second time. `fut.result()` raising runs only the `except` branch, which
executes `stats["failure"] += 1`. -/
def collectOutcome (s : Stats) (o : Outcome) : Stats :=
  match o with
  | Except.ok ms =>
      let s1 : Stats :=
        { s with success := s.success + 1, latencies := s.latencies ++ [ms] }
      { s1 with success := s1.success + 1 }
  | Except.error _ => { s with failure := s.failure + 1 }

/-- The whole collection loop: fold `collectOutcome` over the outcomes in the
order `as_completed` yields them. -/
def collectAll (outs : List Outcome) : Stats :=
  outs.foldl collectOutcome stats0

/-- One iteration of the Ctrl+C handler loop (source lines 422-432): for a
done future, success adds one to `success` and appends the latency, failure
adds one to `failure`; here `success` is incremented only once. -/
def interruptFold (s : Stats) (o : Outcome) : Stats :=
  match o with
  | Except.ok ms =>
      { s with success := s.success + 1, latencies := s.latencies ++ [ms] }
  | Except.error _ => { s with failure := s.failure + 1 }

/-- The Ctrl+C handler's loop over the whole `futures` list (source lines
421-432), starting from the `stats` value at the moment of the interrupt.
Each future is `some o` when `fut.done()` is true with outcome `o`, and
`none` when still in flight.  Done futures are folded and counted in
`done_count`; in-flight futures are skipped.  The loop iterates over ALL
submitted futures, including ones the collection loop already consumed. -/
def interruptCollect (s : Stats) (futs : List (Option Outcome)) : Stats × Nat :=
  futs.foldl
    (fun (p : Stats × Nat) f =>
      match f with
      | some o => (interruptFold p.1 o, p.2 + 1)
      | none => p)
    (s, 0)

/-- `query_motd_sync` (source lines 190-211), abstracted over the probe.
`probe k` is the outcome of the `server.status(timeout=timeout)` call made on
attempt number `k` (0-based): `Except.ok ms` models a successful status call
whose monotonic-clock elapsed time is `ms` milliseconds, `Except.error e` a
raised exception.  `queryAux probe attempt retriesLeft` runs the remainder of
the `for attempt in range(retries + 1)` loop and returns
`(result, warnings, attempts)`: the returned latency or re-raised last error,
the number of `logger.warning` retry messages emitted, and the number of
probe attempts actually made.  On failure with retries left the loop warns
and continues; on failure with none left it re-raises. -/
def queryAux (probe : Nat → Except String ℚ) (attempt : Nat) :
    Nat → Except String ℚ × Nat × Nat
  | 0 =>
      match probe attempt with
      | Except.ok ms => (Except.ok ms, 0, 1)
      | Except.error e => (Except.error e, 0, 1)
  | n + 1 =>
      match probe attempt with
      | Except.ok ms => (Except.ok ms, 0, 1)
      | Except.error _ =>
          let r := queryAux probe (attempt + 1) n
          (r.1, r.2.1 + 1, r.2.2 + 1)

/-- `query_motd_sync` proper: start the attempt loop at attempt 0 with
`retries` retries remaining. -/
def query_motd_sync (probe : Nat → Except String ℚ) (retries : Nat) :
    Except String ℚ × Nat × Nat :=
  queryAux probe 0 retries

/-- The per-request submission delay in seconds (source line 354):
`1.0 / qps` when `qps > 0`, else `0`. -/
def delay_per_req (qps : ℤ) : ℚ :=
  if 0 < qps then 1 / (qps : ℚ) else 0

/-- Total delay imposed by the submission loop over `k` iterations: the loop
sleeps `delay_per_req qps` before each of the `k` submissions (source lines
364-366; the sleep is skipped exactly when the delay is 0). -/
def submissionDelay (qps : ℤ) (k : Nat) : ℚ :=
  (k : ℚ) * delay_per_req qps

/-- `req_per_second[sec] += 1` (source line 370) on the histogram modelled as
a function from epoch second to count (`defaultdict(int)` starts at 0
everywhere). -/
def bumpSec (h : ℤ → Nat) (sec : ℤ) : ℤ → Nat :=
  fun t => if t = sec then h t + 1 else h t

/-- The submission loop (source lines 364-378), abstracted over the wall
clock: `secOf i` is the value of `int(time.time())` during iteration `i`.
Each of the `total` iterations bumps the histogram for its epoch second
exactly once and then submits one task (counted in the second component). -/
def submitLoop (secOf : Nat → ℤ) (total : Nat) : (ℤ → Nat) × Nat :=
  (List.range total).foldl
    (fun (p : (ℤ → Nat) × Nat) i => (bumpSec p.1 (secOf i), p.2 + 1))
    (fun _ => 0, 0)

/-- `sorted(latencies)` (source line 250): ascending sort of the samples. -/
def latSorted (l : List ℚ) : List ℚ :=
  l.insertionSort (· ≤ ·)

/-- The P99 rule (source line 251):
`lat_sorted[int(len(lat_sorted) * 0.99) - 1] if len(lat_sorted) >= 100 else
lat_sorted[-1]`.  `int(n * 0.99)` truncates the product toward zero, i.e.
floors it for the nonnegative lengths that occur, so it is modelled as the
natural-number floor `99 * n / 100`; `lat_sorted[-1]` is the last element of
the ascending sort. -/
def p99 (l : List ℚ) : ℚ :=
  let s := latSorted l
  if 100 ≤ s.length then s.getD (99 * s.length / 100 - 1) 0
  else s.getD (s.length - 1) 0

/-- The report printed by `print_stats` (source lines 231-257), as data:
the completed-request count and counters it echoes, the success rate, and —
when there is at least one latency sample — the average, minimum, maximum and
P99 latency.  `latencySummary = none` is the `else` branch that prints
"no valid latency data". -/
structure Report where
  total_requests : Nat
  success : Nat
  failure : Nat
  success_rate : ℚ
  latencySummary : Option (ℚ × ℚ × ℚ × ℚ)
  deriving DecidableEq, Repr

/-- `print_stats(collected_stats, total_requests)`: the success rate is
`success / total_requests * 100` guarded by `total_requests > 0` (else 0);
the latency section is computed only under `if latencies:`, with
`sum/len`, `min`, `max` and the P99 rule. -/
def print_stats (s : Stats) (total_requests : Nat) : Report :=
  { total_requests := total_requests
    success := s.success
    failure := s.failure
    success_rate :=
      if 0 < total_requests then (s.success : ℚ) / (total_requests : ℚ) * 100
      else 0
    latencySummary :=
      match s.latencies with
      | [] => none
      | a :: t =>
          some ((a :: t).sum / (((a :: t).length : ℚ)),
                t.foldl min a, t.foldl max a, p99 (a :: t)) }

/-- The run configuration assembled from the parsed arguments (source lines
276-284): `--concurrency`, `--total`, `--qps`, `--retries` are Python ints,
`--timeout` a float (modelled as `ℚ`). -/
structure RunConfig where
  concurrency : ℤ
  total : ℤ
  qps : ℤ
  timeout : ℚ
  retries : ℤ

/-- The validation predicate of source line 299:
`args.concurrency <= 0 or args.total <= 0 or args.qps < 0 or
args.timeout <= 0 or args.retries < 0` — when true the script exits before
the stress phase. -/
def configInvalid (c : RunConfig) : Bool :=
  decide (c.concurrency ≤ 0) || decide (c.total ≤ 0) || decide (c.qps < 0) ||
    decide (c.timeout ≤ 0) || decide (c.retries < 0)

/-- How a run can abort before producing statistics: failed argument
validation (source lines 299-305) or a failed initial ping (source lines
342-346). -/
inductive RunError where
  | configError
  | pingError
  deriving DecidableEq, Repr

/-- What a completed run yields: the folded statistics, the number of tasks
submitted, and the per-second submission histogram. -/
structure RunResult where
  stats : Stats
  submissions : Nat
  histogram : ℤ → Nat

/-- The orchestration of `main` for a run that is not interrupted (source
lines 294-446): validate the configuration (exit before any probing if
invalid), ping once (exit before any probing on failure), then submit
`total` tasks (recording each submission's epoch second via `secOf`) and
collect every future's outcome (`probe i` being the result of task `i`). -/
def runMain (c : RunConfig) (ping : Except String Unit) (secOf : Nat → ℤ)
    (probe : Nat → Except String ℚ) : Except RunError RunResult :=
  if configInvalid c then Except.error RunError.configError
  else
    match ping with
    | Except.error _ => Except.error RunError.pingError
    | Except.ok _ =>
        let total := c.total.toNat
        Except.ok
          { stats := collectAll ((List.range total).map probe)
            submissions := (submitLoop secOf total).2
            histogram := (submitLoop secOf total).1 }

/-- Number of probe tasks submitted by a run: zero when the run aborted
before the stress phase. -/
def probesIssued (r : Except RunError RunResult) : Nat :=
  match r with
  | Except.error _ => 0
  | Except.ok res => res.submissions

/-- A probe that fails on attempts 0 and 1 and succeeds on attempt 2 with a
latency of 37 ms (the spec's "fails twice then succeeds" scenario). -/
def probeFailTwice : Nat → Except String ℚ :=
  fun n => if n < 2 then Except.error "refused" else Except.ok (37 : ℚ)

/-- A probe that always fails. -/
def probeAlwaysFail : Nat → Except String ℚ :=
  fun _ => Except.error "down"

/-- A configuration with non-positive concurrency (and otherwise sensible
fields), used to exercise the validation path. -/
def badConfig : RunConfig :=
  { concurrency := 0, total := 10, qps := 0, timeout := 5, retries := 0 }

/-- A trivial wall clock for concrete runs: everything in epoch second 0. -/
def zeroSec : Nat → ℤ := fun _ => 0

/-- The spec's 150-sample P99 example: ascending latencies 1..150 ms. -/
def ex150 : List ℚ :=
  (List.range' 1 150).map (fun n : ℕ => (n : ℚ))

/-- The example run of claim C1 / the spec's end-to-end scenario: 50 attempts,
sequence numbers 1..50, where every attempt whose sequence number is a
multiple of 5 fails terminally (10 failures) and every other attempt succeeds
in 5 ms (40 successes). -/
def outcomes50 : List Outcome :=
  (List.range 50).map
    (fun i => if (i + 1) % 5 = 0 then Except.error "fail" else Except.ok (5 : ℚ))

/-- Claim C1: after the Completed run of the 50-attempt scenario (10 terminal
failures), the code records success = 80 — every successful future is counted
twice, once in the `try` body and once in the `else` branch — and failure =
10, so success + failure = 90, not the 50 (with success = 40) the claim
states. -/
theorem collectAll_counts_c1 :
    (collectAll outcomes50).success = 80 ∧
    (collectAll outcomes50).failure = 10 ∧
    (collectAll outcomes50).success + (collectAll outcomes50).failure ≠ 50 := by
  refine ⟨by decide, by decide, by decide⟩

/-- Claim C2: the snapshot after folding a single successful outcome (latency
5 ms) shows success = 2 but only one latency sample, refuting "latency sample
count equals success count at every snapshot". -/
theorem snapshot_mismatch_c2 :
    (collectAll [Except.ok (5 : ℚ)]).success = 2 ∧
    (collectAll [Except.ok (5 : ℚ)]).latencies.length = 1 := by
  exact ⟨rfl, rfl⟩

/-- Claim C3: interrupt observed during Collecting, after the collection loop
has already folded the one submitted future (a success, 5 ms).  The Ctrl+C
handler re-iterates the whole `futures` list and folds the same done future
again: the final stats show success + failure = 3 while only 1 task handle
was observed done, refuting "each done handle's outcome counted exactly
once". -/
theorem interrupt_double_count_c3 :
    (interruptCollect (collectAll [Except.ok (5 : ℚ)])
        [some (Except.ok (5 : ℚ))]).1.success = 3 ∧
    (interruptCollect (collectAll [Except.ok (5 : ℚ)])
        [some (Except.ok (5 : ℚ))]).1.failure = 0 ∧
    (interruptCollect (collectAll [Except.ok (5 : ℚ)])
        [some (Except.ok (5 : ℚ))]).2 = 1 := by
  exact ⟨rfl, rfl, rfl⟩

/-- The attempt loop makes at most one probe per remaining attempt. -/
theorem queryAux_attempts_le (probe : Nat → Except String ℚ) :
    ∀ n a, (queryAux probe a n).2.2 ≤ n + 1 := by
  intro n
  induction n with
  | zero =>
      intro a
      cases h : probe a <;> simp [queryAux, h]
  | succ n ih =>
      intro a
      cases h : probe a with
      | ok ms => simp [queryAux, h]
      | error e =>
          have hrec := ih (a + 1)
          simp only [queryAux, h]
          omega

/-- If the first `k` probes fail and probe `k` succeeds within the retry
budget, the loop returns that probe's latency after `k` warnings and `k + 1`
attempts. -/
theorem queryAux_success (probe : Nat → Except String ℚ) :
    ∀ k n a ms, k ≤ n → probe (a + k) = Except.ok ms →
      (∀ j, j < k → ∃ e, probe (a + j) = Except.error e) →
      queryAux probe a n = (Except.ok ms, k, k + 1) := by
  intro k
  induction k with
  | zero =>
      intro n a ms _ hok _
      have hok' : probe a = Except.ok ms := by simpa using hok
      cases n <;> simp [queryAux, hok']
  | succ k ih =>
      intro n a ms hk hok hfail
      obtain ⟨e0, he0⟩ := hfail 0 (Nat.succ_pos k)
      have he0' : probe a = Except.error e0 := by simpa using he0
      obtain ⟨m, rfl⟩ : ∃ m, n = m + 1 := ⟨n - 1, by omega⟩
      have hok' : probe (a + 1 + k) = Except.ok ms := by
        rw [show a + 1 + k = a + (k + 1) by omega]; exact hok
      have hfail' : ∀ j, j < k → ∃ e, probe (a + 1 + j) = Except.error e := by
        intro j hj
        obtain ⟨e, he⟩ := hfail (j + 1) (by omega)
        exact ⟨e, by rw [show a + 1 + j = a + (j + 1) by omega]; exact he⟩
      have hrec := ih m (a + 1) ms (by omega) hok' hfail'
      simp [queryAux, he0', hrec]

/-- If every probe within the budget fails, the loop re-raises the last
error after `n` warnings and `n + 1` attempts. -/
theorem queryAux_allFail (probe : Nat → Except String ℚ) :
    ∀ n a, (∀ k, k ≤ n → ∃ e, probe (a + k) = Except.error e) →
      ∃ e, probe (a + n) = Except.error e ∧
        queryAux probe a n = (Except.error e, n, n + 1) := by
  intro n
  induction n with
  | zero =>
      intro a hfail
      obtain ⟨e, he⟩ := hfail 0 (Nat.le_refl 0)
      have he' : probe a = Except.error e := by simpa using he
      exact ⟨e, by simpa using he, by simp [queryAux, he']⟩
  | succ n ih =>
      intro a hfail
      obtain ⟨e0, he0⟩ := hfail 0 (Nat.zero_le _)
      have he0' : probe a = Except.error e0 := by simpa using he0
      obtain ⟨e, he, hq⟩ := ih (a + 1) (fun k hk => by
        obtain ⟨e, h⟩ := hfail (k + 1) (by omega)
        exact ⟨e, by rw [show a + 1 + k = a + (k + 1) by omega]; exact h⟩)
      refine ⟨e, ?_, ?_⟩
      · rw [show a + (n + 1) = a + 1 + n by omega]; exact he
      · simp [queryAux, he0', hq]

/-- Claim C5: `query_motd_sync` with retry budget `r` makes at most `r + 1`
probe attempts; when the first `k ≤ r` probes fail and probe `k` succeeds
with elapsed time `ms`, it returns `ms` after exactly `k` retry warnings
(one per non-final failed attempt) and `k + 1` attempts; and when all `r + 1`
probes fail it re-raises the last probe's error after exactly `r` warnings
and `r + 1` attempts. -/
theorem query_motd_sync_spec_c5 (probe : Nat → Except String ℚ) (r : Nat) :
    (query_motd_sync probe r).2.2 ≤ r + 1 ∧
    (∀ k ms, k ≤ r → probe k = Except.ok ms →
      (∀ j, j < k → ∃ e, probe j = Except.error e) →
      query_motd_sync probe r = (Except.ok ms, k, k + 1)) ∧
    ((∀ k, k ≤ r → ∃ e, probe k = Except.error e) →
      ∃ e, probe r = Except.error e ∧
        query_motd_sync probe r = (Except.error e, r, r + 1)) := by
  refine ⟨queryAux_attempts_le probe r 0, ?_, ?_⟩
  · intro k ms hk hok hfail
    exact queryAux_success probe k r 0 ms hk (by simpa using hok)
      (fun j hj => by simpa using hfail j hj)
  · intro hfail
    obtain ⟨e, he, hq⟩ :=
      queryAux_allFail probe r 0 (fun k hk => by simpa using hfail k hk)
    exact ⟨e, by simpa using he, hq⟩

/-- Witness for claim C5: a probe failing twice then succeeding with 37 ms
under `retries = 2` yields the success latency, two warnings, three
attempts; an always-failing probe under `retries = 0` yields the error after
one attempt and no warning. -/
theorem query_motd_sync_witness_c5 :
    query_motd_sync probeFailTwice 2 = (Except.ok (37 : ℚ), 2, 3) ∧
    (∃ e, probeAlwaysFail 0 = Except.error e ∧
      query_motd_sync probeAlwaysFail 0 = (Except.error e, 0, 1)) := by
  constructor
  · exact (query_motd_sync_spec_c5 probeFailTwice 2).2.1 2 37 (Nat.le_refl 2)
      rfl (fun j hj => ⟨"refused", by simp [probeFailTwice, hj]⟩)
  · exact (query_motd_sync_spec_c5 probeAlwaysFail 0).2.2
      (fun k _ => ⟨"down", rfl⟩)

/-- Claim C7: with `qps = 0` the submission loop imposes no delay; with
`qps = R > 0` the per-request delay is exactly `1 / R` seconds and the total
delay imposed across `k` submissions is at least `(k - 1) / R` seconds. -/
theorem rate_gate_spec_c7 (qps : ℤ) (k : Nat) :
    (qps = 0 → submissionDelay qps k = 0) ∧
    (0 < qps → delay_per_req qps = 1 / (qps : ℚ) ∧
      ((k : ℚ) - 1) / (qps : ℚ) ≤ submissionDelay qps k) := by
  constructor
  · intro h
    subst h
    simp [submissionDelay, delay_per_req]
  · intro h
    have hq : (0 : ℚ) < (qps : ℚ) := by exact_mod_cast h
    refine ⟨by simp [delay_per_req, h], ?_⟩
    have hle : ((k : ℚ) - 1) / (qps : ℚ) ≤ (k : ℚ) / (qps : ℚ) := by
      gcongr
      linarith
    calc ((k : ℚ) - 1) / (qps : ℚ) ≤ (k : ℚ) / (qps : ℚ) := hle
      _ = submissionDelay qps k := by
          simp [submissionDelay, delay_per_req, h, mul_one_div, div_eq_mul_inv]

/-- Witness for claim C7 at `qps = 0, k = 5` and `qps = 2, k = 3`. -/
theorem rate_gate_witness_c7 :
    submissionDelay 0 5 = 0 ∧
    delay_per_req 2 = 1 / ((2 : ℤ) : ℚ) ∧
    (((3 : Nat) : ℚ) - 1) / ((2 : ℤ) : ℚ) ≤ submissionDelay 2 3 := by
  refine ⟨(rate_gate_spec_c7 0 5).1 rfl, ?_, ?_⟩
  · exact ((rate_gate_spec_c7 2 3).2 (by decide)).1
  · exact ((rate_gate_spec_c7 2 3).2 (by decide)).2

/-- Unfolding one iteration of the submission loop. -/
theorem submitLoop_succ (secOf : Nat → ℤ) (n : Nat) :
    submitLoop secOf (n + 1) =
      (bumpSec (submitLoop secOf n).1 (secOf n), (submitLoop secOf n).2 + 1) := by
  simp [submitLoop, List.range_succ]

/-- Bumping one histogram cell adds exactly one to any total that covers the
bumped second. -/
theorem sum_bumpSec (h : ℤ → Nat) (sec : ℤ) (S : Finset ℤ) (hs : sec ∈ S) :
    ∑ t ∈ S, bumpSec h sec t = (∑ t ∈ S, h t) + 1 := by
  have hfun : ∀ t, bumpSec h sec t = h t + (if t = sec then 1 else 0) := by
    intro t
    by_cases ht : t = sec <;> simp [bumpSec, ht]
  simp only [hfun, Finset.sum_add_distrib, Finset.sum_ite_eq', hs, if_true]

/-- Claim C8: every submission iteration bumps the per-second histogram for
its epoch second exactly once, so after `total` iterations the number of
submitted tasks is `total` and the histogram's values sum to `total` over
any set of seconds covering the submission times. -/
theorem submit_histogram_c8 (secOf : Nat → ℤ) (total : Nat) :
    (submitLoop secOf total).2 = total ∧
    ∀ S : Finset ℤ, (∀ i, i < total → secOf i ∈ S) →
      ∑ t ∈ S, (submitLoop secOf total).1 t = total := by
  induction total with
  | zero =>
      exact ⟨by simp [submitLoop], fun S _ => by simp [submitLoop]⟩
  | succ n ih =>
      constructor
      · rw [submitLoop_succ]
        simp [ih.1]
      · intro S hS
        rw [submitLoop_succ]
        simp only
        rw [sum_bumpSec _ _ S (hS n (Nat.lt_succ_self n))]
        rw [ih.2 S (fun i hi => hS i (Nat.lt_succ_of_lt hi))]

/-- Witness for claim C8: three submissions all in epoch second 0 give a
histogram summing to 3 over `{0}` and three submitted tasks. -/
theorem submit_histogram_witness_c8 :
    (submitLoop zeroSec 3).2 = 3 ∧
    ∑ t ∈ ({0} : Finset ℤ), (submitLoop zeroSec 3).1 t = 3 := by
  refine ⟨(submit_histogram_c8 zeroSec 3).1,
    (submit_histogram_c8 zeroSec 3).2 {0} ?_⟩
  intro i _
  simp [zeroSec]

/-- In a `(· ≤ ·)`-sorted list, every element is at most the last element. -/
theorem sorted_le_last (l : List ℚ) (hs : l.Sorted (· ≤ ·)) :
    ∀ x ∈ l, x ≤ l.getD (l.length - 1) 0 := by
  induction l with
  | nil => intro x hx; cases hx
  | cons a t ih =>
      cases t with
      | nil =>
          intro x hx
          have hx' : x = a := by simpa using hx
          simp [hx', List.getD]
      | cons b t' =>
          intro x hx
          have hsc := (List.sorted_cons.mp hs)
          have hlast :
              (a :: b :: t').getD ((a :: b :: t').length - 1) 0 =
                (b :: t').getD ((b :: t').length - 1) 0 := by
            simp [List.getD]
          rw [hlast]
          rcases List.mem_cons.mp hx with hxa | hxbt

          · have hab : a ≤ b := hsc.1 b (List.mem_cons_self b t')
            have hb := ih hsc.2 b (List.mem_cons_self b t')
            exact hxa ▸ le_trans hab hb
          · exact ih hsc.2 x hxbt

/-- Claim C4: the P99 rule sorts the samples ascending; when `n ≥ 100` it
reads the sorted sample at 0-based index `floor(0.99 * n) - 1 = 99 * n / 100
- 1`, otherwise it takes the maximum sample; on the ascending samples
`1..150` it yields 148, and on `[10, 20, 30]` it yields 30. -/
theorem p99_spec_c4 :
    (∀ l : List ℚ, 100 ≤ l.length →
      (latSorted l).Sorted (· ≤ ·) ∧ List.Perm (latSorted l) l ∧
      p99 l = (latSorted l).getD (99 * l.length / 100 - 1) 0) ∧
    (∀ l : List ℚ, l ≠ [] → l.length < 100 →
      p99 l ∈ l ∧ ∀ x ∈ l, x ≤ p99 l) ∧
    p99 ex150 = 148 ∧ p99 [10, 20, 30] = 30 := by
  have hlen : ∀ l : List ℚ, (latSorted l).length = l.length := by
    intro l
    simp [latSorted, List.length_insertionSort]
  have hsorted : ∀ l : List ℚ, (latSorted l).Sorted (· ≤ ·) :=
    fun l => List.sorted_insertionSort (· ≤ ·) l
  have hperm : ∀ l : List ℚ, List.Perm (latSorted l) l :=
    fun l => List.perm_insertionSort (· ≤ ·) l
  have hmax : ∀ l : List ℚ, l ≠ [] → l.length < 100 →
      p99 l ∈ l ∧ ∀ x ∈ l, x ≤ p99 l := by
    intro l hne hsmall
    have hlt : ¬ 100 ≤ (latSorted l).length := by
      rw [hlen l]; omega
    have hp : p99 l = (latSorted l).getD ((latSorted l).length - 1) 0 := by
      simp [p99, hlt]
    have hpos : 0 < (latSorted l).length := by
      rw [hlen l]
      exact List.length_pos.mpr hne
    constructor
    · have hidx : (latSorted l).length - 1 < (latSorted l).length := by omega
      rw [hp, List.getD_eq_getElem _ _ hidx]
      exact (hperm l).mem_iff.mp (List.getElem_mem hidx)
    · intro x hx
      rw [hp]
      exact sorted_le_last (latSorted l) (hsorted l) x ((hperm l).mem_iff.mpr hx)
  refine ⟨?_, hmax, ?_, ?_⟩
  · intro l hbig
    refine ⟨hsorted l, hperm l, ?_⟩
    have hge : 100 ≤ (latSorted l).length := by rw [hlen l]; exact hbig
    simp only [p99]
    rw [if_pos hge, hlen l]
  · have hs150 : ex150.Sorted (· ≤ ·) := by
      rw [ex150]
      refine List.Pairwise.map _ ?_ (List.pairwise_lt_range' 1 150)
      intro a b hab
      show (a : ℚ) ≤ (b : ℚ)
      exact_mod_cast Nat.le_of_lt hab
    have heq : latSorted ex150 = ex150 := hs150.insertionSort_eq
    have hlen150 : ex150.length = 150 := by
      rw [ex150, List.length_map, List.length_range']
    have hge : 100 ≤ (latSorted ex150).length := by
      rw [hlen ex150, hlen150]; omega
    have hidx : 99 * (latSorted ex150).length / 100 - 1 = 147 := by
      rw [hlen ex150, hlen150]
    have h147 : (147 : Nat) < ex150.length := by omega
    have hval : ex150.getD 147 0 = 148 := by
      rw [List.getD_eq_getElem _ _ h147]
      simp only [ex150, List.getElem_map, List.getElem_range'_1]
      norm_num
    simp only [p99]
    rw [if_pos hge, hidx, heq, hval]
  · have hs3 : ([10, 20, 30] : List ℚ).Sorted (· ≤ ·) := by
      norm_num [List.sorted_cons]
    have heq : latSorted ([10, 20, 30] : List ℚ) = [10, 20, 30] :=
      hs3.insertionSort_eq
    have hlt : ¬ 100 ≤ (latSorted ([10, 20, 30] : List ℚ)).length := by
      rw [heq]; simp
    simp [p99, hlt, heq]

/-- Witness for claim C4: the small-sample branch applied to `[10, 20, 30]`
and the large-sample branch applied to the 150-sample example. -/
theorem p99_witness_c4 :
    (p99 [10, 20, 30] ∈ ([10, 20, 30] : List ℚ)) ∧
    List.Perm (latSorted ex150) ex150 := by
  constructor
  · exact (p99_spec_c4.2.1 [10, 20, 30] (by simp) (by simp)).1
  · refine (p99_spec_c4.1 ex150 ?_).2.1
    rw [ex150, List.length_map, List.length_range']
    exact Nat.le_of_lt (by omega)

/-- Claim C10: a report produced from empty statistics with zero completed
requests takes the guarded branches — the success rate is 0 (the
`total_requests > 0` guard) and the latency section is the no-data branch
(the `if latencies` guard) — so neither the success-rate nor the
average-latency division is ever evaluated with a zero denominator. -/
theorem print_stats_zero_c10 (s : Stats) (h : s.latencies = []) :
    (print_stats s 0).success_rate = 0 ∧
    (print_stats s 0).latencySummary = none := by
  constructor
  · simp [print_stats]
  · simp [print_stats, h]

/-- Witness for claim C10 at the freshly initialised statistics. -/
theorem print_stats_zero_witness_c10 :
    (print_stats stats0 0).success_rate = 0 ∧
    (print_stats stats0 0).latencySummary = none :=
  print_stats_zero_c10 stats0 rfl

/-- Claim C6: a configuration with non-positive concurrency, non-positive
total, negative qps, non-positive timeout or negative retries is rejected
with a configuration error before the stress phase, and no probe task is
ever submitted. -/
theorem config_rejected_c6 (c : RunConfig) (ping : Except String Unit)
    (secOf : Nat → ℤ) (probe : Nat → Except String ℚ)
    (h : c.concurrency ≤ 0 ∨ c.total ≤ 0 ∨ c.qps < 0 ∨ c.timeout ≤ 0 ∨
      c.retries < 0) :
    runMain c ping secOf probe = Except.error RunError.configError ∧
    probesIssued (runMain c ping secOf probe) = 0 := by
  have hc : configInvalid c = true := by
    simp only [configInvalid, Bool.or_eq_true, decide_eq_true_eq]
    tauto
  constructor <;> simp [runMain, probesIssued, hc]

/-- Witness for claim C6: concurrency 0 is rejected before any probing. -/
theorem config_rejected_witness_c6 :
    runMain badConfig (Except.ok ()) zeroSec probeAlwaysFail =
      Except.error RunError.configError ∧
    probesIssued (runMain badConfig (Except.ok ()) zeroSec probeAlwaysFail) = 0 :=
  config_rejected_c6 badConfig (Except.ok ()) zeroSec probeAlwaysFail
    (Or.inl (by decide))

end MotdStress
